import Mathlib

/-!
Verification development for `utils/process.py` (CAPE sandbox post-processing
scheduler).  The Python module is shallowly embedded: Python strings are
`List Char`, external effects (database status writes, file deletions, stage
invocations, log lines) are recorded in an explicit trace, and the outcome of
each externally-supplied stage or of a worker future is a parameter of the
embedding.  Dictionaries (`pending_future_map`, `pending_task_id_map`) are
association lists.
-/

deriving instance DecidableEq for Except

namespace CapeProcess

/-- Python strings are modelled as lists of characters (kernel-reducible,
unlike the built-in `String` operations). -/
abbrev PyStr := List Char

/-- Python truthiness of an optional string: `None` and `""` are falsy. -/
def pyTruthy : Option PyStr → Bool
  | none => false
  | some s => !s.isEmpty

/-- `os.path.join(a, b)` for two POSIX components: an absolute second
component replaces the first, otherwise a separator is inserted unless the
first component is empty or already ends in a slash. -/
def osPathJoin (a b : PyStr) : PyStr :=
  if b.head? = some '/' then b
  else if a = [] ∨ a.getLast? = some '/' then a ++ b
  else a ++ '/' :: b

/-- Task statuses used by `utils/process.py` (`TASK_COMPLETED`,
`TASK_FAILED_PROCESSING`, `TASK_REPORTED`, plus the upstream states owned by
the task store, collapsed into `other`). -/
inductive TaskStatus where
  | completed
  | failed_processing
  | reported
  | other
deriving DecidableEq, Repr

/-- The three pipeline stages run by `process` (`RunProcessing`,
`RunSignatures`, `RunReporting`); the reporting stage records the `reprocess`
keyword it was invoked with. -/
inductive Stage where
  | processing
  | signatures
  | reporting (reprocess : Bool)
deriving DecidableEq, Repr

/-- Externally visible effects of the embedded code, in program order.
`setStatus` carries an `Option Nat` because `processing_finished` obtains the
task id from `pending_future_map.get(future)`, which can be `None`. -/
inductive Effect where
  | runStage (s : Stage)
  | setStatus (task_id : Option Nat) (status : TaskStatus)
  | deleteFile (path : PyStr)
  | logLine (msg : PyStr)
deriving DecidableEq, Repr

/-- External environment of one `process` call: configuration flags read from
`cfg.cuckoo`, the filesystem (`path_exists`), the database reference check
(`db.sample_still_used`), and whether each stage's `run()` completes normally
(`true`) or raises (`false`). -/
structure Env where
  delete_original : Bool
  delete_bin_copy : Bool
  path_exists : PyStr → Bool
  sample_still_used : PyStr → Nat → Bool
  runProcessing_ok : Bool
  runSignatures_ok : Bool
  runReporting_ok : Bool

/-- `reprocess` flag computed inside `process` (lines 128-131): `False` when
`auto or capeproc`, otherwise the `report` argument. -/
def reprocessFlag (report auto capeproc : Bool) : Bool :=
  if auto || capeproc then false else report

/-- `copy_path = os.path.join(CUCKOO_ROOT, "storage", "binaries",
sample_sha256)` (line 142), with `CUCKOO_ROOT` passed as `root`. -/
def copy_path (root sample_sha256 : PyStr) : PyStr :=
  osPathJoin (osPathJoin (osPathJoin root "storage".data) "binaries".data) sample_sha256

/-- Embedding of `process` (lines 87-155).  Returns the trace of effects and
whether the call raised (an exception in a stage propagates out of `process`
unhandled; every effect before the raise is kept).  Logging-handler setup,
proctitle bookkeeping and the `memory_debugging` GC log lines are omitted from
the trace as they carry no claim-relevant state. -/
def process (env : Env) (root : PyStr) (target : Option PyStr) (sample_sha256 : PyStr)
    (task_id : Nat) (report auto capeproc : Bool) : List Effect × Bool :=
  if !env.runProcessing_ok then ([.runStage .processing], true)
  else if !env.runSignatures_ok then ([.runStage .processing, .runStage .signatures], true)
  else if report then
    if !env.runReporting_ok then
      ([.runStage .processing, .runStage .signatures,
        .runStage (.reporting (reprocessFlag report auto capeproc))], true)
    else
      let base : List Effect :=
        [.runStage .processing, .runStage .signatures,
         .runStage (.reporting (reprocessFlag report auto capeproc)),
         .setStatus (some task_id) .reported]
      if auto then
        let delOrig : List Effect :=
          if env.delete_original && pyTruthy target && env.path_exists (target.getD []) then
            [.deleteFile (target.getD [])]
          else []
        let delCopy : List Effect :=
          if env.delete_bin_copy &&
              (env.path_exists (copy_path root sample_sha256) &&
               !env.sample_still_used sample_sha256 task_id) then
            [.deleteFile (copy_path root sample_sha256)]
          else []
        (base ++ delOrig ++ delCopy, false)
      else (base, false)
  else ([.runStage .processing, .runStage .signatures], false)

/-! ## Scheduler state and the completion reconciler -/

/-- First value bound to a key in an association list (`dict.get`). -/
def lookup (m : List (Nat × Nat)) (k : Nat) : Option Nat :=
  (m.find? (fun p => p.1 = k)).map (·.2)

/-- `dict.pop(k)`'s effect on the mapping: remove the (unique) binding of `k`. -/
def popKey (m : List (Nat × Nat)) (k : Nat) : List (Nat × Nat) :=
  m.eraseP (fun p => p.1 = k)

/-- Module-level mutable state touched by `processing_finished`: the two
directions of the in-flight registry, the task id currently baked into the
log `FORMATTER` (`none` after `set_formatter_fmt()` with no argument), and
the process title. -/
structure SchedState where
  pending_future_map : List (Nat × Nat)
  pending_task_id_map : List (Nat × Nat)
  formatter_fmt : Option Nat
  proctitle : PyStr
deriving DecidableEq, Repr

/-- Resolution of a pebble future: `future.result()` returns, raises
`TimeoutError`, raises `pebble.ProcessExpired`, or raises any other
exception propagated from the worker. -/
inductive FutOutcome where
  | success
  | timeout
  | processExpired
  | exn
deriving DecidableEq, Repr

/-- Embedding of `processing_finished` (lines 224-242).  `task_id` is read via
`pending_future_map.get(future)`; on a non-success resolution the task status
is set to `TASK_FAILED_PROCESSING`; both registry directions are popped and
the formatter and the process title are restored to their idle values.
(The Python `dict.pop` would raise `KeyError` on an absent key; the embedding
leaves the map unchanged in that case, and every theorem below assumes the
future was registered, as `autoprocess` guarantees.) -/
def processing_finished (original_proctitle : PyStr) (future : Nat) (outcome : FutOutcome)
    (st : SchedState) : SchedState × List Effect :=
  let task_id := lookup st.pending_future_map future
  let effs : List Effect :=
    match outcome with
    | .success => [.logLine "Reports generation completed".data]
    | .timeout =>
        [.logLine "Processing Timeout".data, .setStatus task_id .failed_processing]
    | .processExpired =>
        [.logLine "Exception when processing task".data, .setStatus task_id .failed_processing]
    | .exn =>
        [.logLine "Exception when processing task".data, .setStatus task_id .failed_processing]
  ({ pending_future_map := st.pending_future_map.eraseP (fun p => p.1 = future),
     pending_task_id_map := st.pending_task_id_map.eraseP (fun p => some p.1 = task_id),
     formatter_fmt := none,
     proctitle := original_proctitle }, effs)

/-! ## The dispatch loop (`autoprocess`) -/

/-- Task record fields read by `autoprocess` (the `status` field stands for
the store-side status used by `db.list_tasks`'s filter). -/
structure PTask where
  id : Nat
  target : PyStr
  category : PyStr
  sample_id : Nat
  completed_on : Nat
  status : TaskStatus
deriving DecidableEq, Repr

/-- Ordering used by `order_by=Task.completed_on.asc()`. -/
def taskLe (a b : PTask) : Prop := a.completed_on ≤ b.completed_on

instance : DecidableRel taskLe := fun a b => Nat.decLe a.completed_on b.completed_on

instance : IsTotal PTask taskLe := ⟨fun a b => Nat.le_total a.completed_on b.completed_on⟩

instance : IsTrans PTask taskLe := ⟨fun _ _ _ => Nat.le_trans⟩

/-- `db.list_tasks(status=..., limit=..., order_by=Task.completed_on.asc())`:
filter the store by status, order by completion time ascending, truncate. -/
def db_list_tasks (store : List PTask) (status : TaskStatus) (limit : Nat) : List PTask :=
  ((store.filter (fun t => t.status = status)).insertionSort taskLe).take limit

/-- `sample_hash` computation (lines 284-288): the empty string unless the
task is non-url and `db.view_sample(task.sample_id)` resolves a sample, in
which case it is that sample's sha256. -/
def sample_hash_for (view_sample : Nat → Option PyStr) (t : PTask) : PyStr :=
  if t.category ≠ "url".data then
    match view_sample t.sample_id with
    | some h => h
    | none => []
  else []

/-- Scheduler-local state threaded through dispatch-loop iterations. -/
structure AutoState where
  pending_task_id_map : List (Nat × Nat)
  pending_future_map : List (Nat × Nat)
  count : Nat
deriving DecidableEq, Repr

/-- The arguments `pool.schedule(process, args, kwargs, ...)` receives for the
one task submitted by an iteration, plus the fresh future handle. -/
structure Submission where
  task : PTask
  target : PyStr
  sample_hash : PyStr
  future : Nat
deriving DecidableEq, Repr

/-- One iteration of the `while` body of `autoprocess` (lines 257-309), after
the free-space wait: if the in-flight registry has reached `parallel`
capacity the iteration only sleeps; otherwise the store is queried for up to
`parallel` oldest-completed eligible tasks (status `TASK_FAILED_PROCESSING`
when `failed_processing`, else `TASK_COMPLETED`), the first candidate not
already in `pending_task_id_map` is submitted (the `for` body ends in
`break`, so at most one), both registry directions gain its entry, and
`count` is incremented.  `new_future` is the fresh handle `pool.schedule`
returns. -/
def autoprocess_iteration (store : List PTask) (view_sample : Nat → Option PyStr)
    (parallel : Nat) (failed_processing : Bool) (new_future : Nat) (st : AutoState) :
    AutoState × Option Submission :=
  if st.pending_task_id_map.length ≥ parallel then (st, none)
  else
    let status := if failed_processing then TaskStatus.failed_processing else TaskStatus.completed
    let tasks := db_list_tasks store status parallel
    match tasks.find? (fun t => (lookup st.pending_task_id_map t.id).isNone) with
    | none => (st, none)
    | some t =>
        ({ pending_task_id_map := st.pending_task_id_map ++ [(t.id, new_future)],
           pending_future_map := st.pending_future_map ++ [(new_future, t.id)],
           count := st.count + 1 },
         some { task := t, target := t.target, sample_hash := sample_hash_for view_sample t,
                future := new_future })

/-- Exceptions that can escape one iteration of the dispatch loop. -/
inductive PyExn where
  | keyboardInterrupt
  | memoryError
  | otherExn (msg : PyStr)
deriving DecidableEq, Repr

/-- Behaviour of one iteration of the `while` body: it either completes
normally or raises. -/
inductive IterEvent where
  | normal
  | raiseExn (e : PyExn)
deriving DecidableEq, Repr

/-- Execution of the `while` loop of `autoprocess` over a script of iteration
behaviours: iterations run in order; the loop body contains no handler, so
the first exception leaves the loop at once.  Returns how many iterations
ran and the escaping exception, if any. -/
def runLoop : List IterEvent → Nat × Option PyExn
  | [] => (0, none)
  | .normal :: rest =>
      let r := runLoop rest
      (r.1 + 1, r.2)
  | .raiseExn e :: _ => (1, some e)

/-- How `autoprocess` as a whole ends. -/
inductive AutoOutcome where
  | returned
  | exited (code : Nat)
  | raised (e : PyExn)
deriving DecidableEq, Repr

/-- The `try/except` structure wrapped around the whole loop (lines 252-326):
`KeyboardInterrupt` is re-raised, `MemoryError` prints the remaining memory
and exits with code 1, and any other exception has its traceback printed
after which `autoprocess` falls through to `finally` and returns normally. -/
def autoprocess_handle : Option PyExn → AutoOutcome × List Effect
  | none => (.returned, [])
  | some .keyboardInterrupt => (.raised .keyboardInterrupt, [])
  | some .memoryError => (.exited 1, [.logLine "ERROR: Memory Exception".data])
  | some (.otherExn _) => (.returned, [.logLine "traceback.print_exc".data])

/-- `autoprocess` run over a script of iteration behaviours: the number of
iterations that ran, how the call ended, and the effects of the exception
handlers. -/
def autoprocess_run (script : List IterEvent) : Nat × AutoOutcome × List Effect :=
  let r := runLoop script
  let h := autoprocess_handle r.2
  (r.1, h.1, h.2)

/-! ## `parse_id` (lines 362-378) -/

/-- Split a character list at every occurrence of `sep` (Python
`str.split(sep)` for a one-character separator; never yields zero blocks). -/
def chSplit (sep : Char) : List Char → List (List Char)
  | [] => [[]]
  | c :: rest =>
      let r := chSplit sep rest
      if c = sep then [] :: r
      else
        match r with
        | [] => [[c]]
        | h :: t => (c :: h) :: t

/-- Python `int(s)` restricted to the decimal strings that occur in id
selectors: `none` models the `ValueError` on a non-numeric block component. -/
def chToNat? (l : List Char) : Option Nat :=
  if l.isEmpty then none
  else if l.all (·.isDigit) then
    some (l.foldl (fun n c => n * 10 + (c.toNat - 48)) 0)
  else none

/-- The body of the `for` loop of `parse_id` applied to one already-converted
block: a two-component block `a-b` must satisfy `a ≤ b` and denotes the
inclusive range `(a, b)`; a single id `n` becomes `(n, n)`; any other
component count raises `TypeError("Invalid id input")`. -/
def parse_block (block : List Nat) : Except PyStr (Nat × Nat) :=
  match block with
  | [a, b] => if b < a then .error "Invalid id input".data else .ok (a, b)
  | [a] => .ok (a, a)
  | _ => .error "Invalid id input".data

/-- Result of `parse_id`: the literal string `"auto"` is returned unchanged,
anything else parses to a list of inclusive `(lo, hi)` pairs. -/
inductive ParsedId where
  | auto
  | ids (blocks : List (Nat × Nat))
deriving DecidableEq, Repr

/-- `int`-convert every component of a block, failing like `int()` does. -/
def int_block (block : List (List Char)) : Except PyStr (List Nat) :=
  match block with
  | [] => .ok []
  | c :: rest =>
      match chToNat? c with
      | none => .error "invalid literal for int".data
      | some n => (int_block rest).map (n :: ·)

/-- Embedding of `parse_id`: return `"auto"` unchanged; otherwise strip
spaces, split on commas, split each block on dashes, convert components with
`int` and validate each block with `parse_block`. -/
def parse_id (id_string : PyStr) : Except PyStr ParsedId :=
  if id_string = "auto".data then .ok .auto
  else
    let stripped := id_string.filter (· ≠ ' ')
    let blocks := (chSplit ',' stripped).map (chSplit '-')
    (blocks.mapM (fun b => (int_block b).bind parse_block)).map .ids

/-! ## Helper lemmas on association lists and `find?` -/

theorem lookup_eq_none_iff (m : List (Nat × Nat)) (k : Nat) :
    lookup m k = none ↔ ∀ p ∈ m, p.1 ≠ k := by
  simp [lookup, List.find?_eq_none]

theorem mem_of_lookup_eq_some {m : List (Nat × Nat)} {k v : Nat}
    (h : lookup m k = some v) : (k, v) ∈ m := by
  simp only [lookup, Option.map_eq_some'] at h
  obtain ⟨p, hp, hv⟩ := h
  have hk := List.find?_some hp
  have hm := List.mem_of_find?_eq_some hp
  simp only [decide_eq_true_eq] at hk
  have : p = (k, v) := by
    cases p
    simp_all
  rw [this] at hm
  exact hm

theorem lookup_append_of_none {m : List (Nat × Nat)} {k : Nat} (v : Nat)
    (h : lookup m k = none) : lookup (m ++ [(k, v)]) k = some v := by
  induction m with
  | nil => simp [lookup]
  | cons p rest ih =>
      rw [lookup_eq_none_iff] at h
      have hp : p.1 ≠ k := h p (by simp)
      have hrest : lookup rest k = none := by
        rw [lookup_eq_none_iff]
        exact fun q hq => h q (by simp [hq])
      simpa [lookup, List.find?_cons, hp] using ih hrest

theorem lookup_popKey_self {m : List (Nat × Nat)} (k : Nat)
    (hn : (m.map Prod.fst).Nodup) : lookup (popKey m k) k = none := by
  induction m with
  | nil => simp [popKey, lookup]
  | cons p rest ih =>
      simp only [List.map_cons, List.nodup_cons] at hn
      by_cases hp : p.1 = k
      · have : popKey (p :: rest) k = rest := by
          simp [popKey, List.eraseP_cons, hp]
        rw [this, lookup_eq_none_iff]
        intro q hq hk
        exact hn.1 (hp ▸ hk ▸ List.mem_map_of_mem Prod.fst hq)
      · have : popKey (p :: rest) k = p :: popKey rest k := by
          simp [popKey, List.eraseP_cons, hp]
        rw [this]
        simpa [lookup, List.find?_cons, hp] using ih hn.2

theorem length_popKey {m : List (Nat × Nat)} {k v : Nat}
    (h : lookup m k = some v) : (popKey m k).length + 1 = m.length := by
  have hm : (k, v) ∈ m := mem_of_lookup_eq_some h
  have hp : decide (((k, v) : Nat × Nat).1 = k) = true := by simp
  have := List.length_eraseP_of_mem (p := fun p => decide (p.1 = k)) hm hp
  have hpos : 0 < m.length := List.length_pos.mpr (List.ne_nil_of_mem hm)
  unfold popKey
  omega

theorem find?_decomp {α : Type} {p : α → Bool} {l : List α} {a : α}
    (h : l.find? p = some a) :
    ∃ l₁ l₂, l = l₁ ++ a :: l₂ ∧ ∀ x ∈ l₁, p x = false := by
  induction l with
  | nil => simp at h
  | cons b rest ih =>
      rw [List.find?_cons] at h
      by_cases hb : p b
      · simp only [hb, cond_true, Option.some.injEq] at h
        exact ⟨[], rest, by simp [h], by simp⟩
      · simp only [Bool.not_eq_true] at hb
        simp only [hb, cond_false] at h
        obtain ⟨l₁, l₂, hl, hfail⟩ := ih h
        exact ⟨b :: l₁, l₂, by simp [hl], by
          intro x hx
          rcases List.mem_cons.mp hx with rfl | hx
          · exact hb
          · exact hfail x hx⟩

/-! ## Claim theorems -/

/-- C2: when a submitted task's future resolves, `processing_finished` writes
`TASK_FAILED_PROCESSING` for the task exactly when the resolution is a
timeout, a worker-crash (`pebble.ProcessExpired`) or a propagated exception;
on a successful resolution it writes no status at all, and it never writes
any status other than `TASK_FAILED_PROCESSING`. -/
theorem processing_finished_status_write (orig : PyStr) (future tid : Nat)
    (o : FutOutcome) (st : SchedState)
    (h : lookup st.pending_future_map future = some tid) :
    (Effect.setStatus (some tid) .failed_processing ∈
        (processing_finished orig future o st).2 ↔ o ≠ .success) ∧
    (∀ t s, Effect.setStatus t s ∈ (processing_finished orig future o st).2 →
        o ≠ .success ∧ t = some tid ∧ s = .failed_processing) := by
  cases o <;> simp [processing_finished, h]

/-- C2 witness: a timeout resolution of registered future 100 (task 2) writes
`FAILED_PROCESSING`, and a successful resolution writes nothing. -/
theorem processing_finished_status_write_witness :
    (Effect.setStatus (some 2) .failed_processing ∈
        (processing_finished "x".data 100 .timeout
          { pending_future_map := [(100, 2)], pending_task_id_map := [(2, 100)],
            formatter_fmt := some 2, proctitle := "y".data }).2) ∧
    (∀ t s, Effect.setStatus t s ∈
        (processing_finished "x".data 100 .success
          { pending_future_map := [(100, 2)], pending_task_id_map := [(2, 100)],
            formatter_fmt := some 2, proctitle := "y".data }).2 → False) := by
  constructor
  · exact (processing_finished_status_write "x".data 100 2 .timeout
      { pending_future_map := [(100, 2)], pending_task_id_map := [(2, 100)],
        formatter_fmt := some 2, proctitle := "y".data } (by decide)).1.mpr (by decide)
  · intro t s hmem
    exact ((processing_finished_status_write "x".data 100 2 .success
      { pending_future_map := [(100, 2)], pending_task_id_map := [(2, 100)],
        formatter_fmt := some 2, proctitle := "y".data } (by decide)).2 t s hmem).1 rfl

/-- C6: whatever the resolution outcome, `processing_finished` removes exactly
one entry from each direction of the in-flight registry (the resolved
future's entry and its task id's entry) and restores the log-formatter label
and the process title to their idle values. -/
theorem processing_finished_frame (orig : PyStr) (future tid fut2 : Nat)
    (o : FutOutcome) (st : SchedState)
    (h1 : lookup st.pending_future_map future = some tid)
    (h2 : lookup st.pending_task_id_map tid = some fut2)
    (hn1 : (st.pending_future_map.map Prod.fst).Nodup)
    (hn2 : (st.pending_task_id_map.map Prod.fst).Nodup) :
    (processing_finished orig future o st).1.pending_future_map.length + 1 =
        st.pending_future_map.length ∧
    (processing_finished orig future o st).1.pending_task_id_map.length + 1 =
        st.pending_task_id_map.length ∧
    lookup (processing_finished orig future o st).1.pending_future_map future = none ∧
    lookup (processing_finished orig future o st).1.pending_task_id_map tid = none ∧
    (processing_finished orig future o st).1.formatter_fmt = none ∧
    (processing_finished orig future o st).1.proctitle = orig := by
  have hmap₁ : (processing_finished orig future o st).1.pending_future_map =
      popKey st.pending_future_map future := by
    simp [processing_finished, popKey]
  have hmap₂ : (processing_finished orig future o st).1.pending_task_id_map =
      popKey st.pending_task_id_map tid := by
    simp [processing_finished, popKey, h1]
  refine ⟨?_, ?_, ?_, ?_, ?_, ?_⟩
  · rw [hmap₁]; exact length_popKey h1
  · rw [hmap₂]; exact length_popKey h2
  · rw [hmap₁]; exact lookup_popKey_self future hn1
  · rw [hmap₂]; exact lookup_popKey_self tid hn2
  · simp [processing_finished]
  · simp [processing_finished]

/-- C6 witness: resolving registered future 100 of task 2 empties both
one-entry registry directions and resets the formatter and process title. -/
theorem processing_finished_frame_witness :
    (processing_finished "x".data 100 .exn
      { pending_future_map := [(100, 2)], pending_task_id_map := [(2, 100)],
        formatter_fmt := some 2, proctitle := "y".data }).1.pending_future_map.length + 1 = 1 ∧
    (processing_finished "x".data 100 .exn
      { pending_future_map := [(100, 2)], pending_task_id_map := [(2, 100)],
        formatter_fmt := some 2, proctitle := "y".data }).1.formatter_fmt = none := by
  have h := processing_finished_frame "x".data 100 2 100 .exn
    { pending_future_map := [(100, 2)], pending_task_id_map := [(2, 100)],
      formatter_fmt := some 2, proctitle := "y".data }
    (by decide) (by decide) (by decide) (by decide)
  exact ⟨h.1, h.2.2.2.2.1⟩

/-- C3: `process` writes `TASK_REPORTED` exactly when the report flag is set
and the Processing, Signature and Reporting stages all complete without
error (in particular only after `RunReporting` finished); with the report
flag unset it performs no status transition whatsoever. -/
theorem process_reported_gate (env : Env) (root : PyStr) (target : Option PyStr)
    (sha : PyStr) (task_id : Nat) (report auto capeproc : Bool) :
    (report = false → ∀ t s,
        Effect.setStatus t s ∉ (process env root target sha task_id report auto capeproc).1) ∧
    (Effect.setStatus (some task_id) .reported ∈
        (process env root target sha task_id report auto capeproc).1 ↔
      report = true ∧ env.runProcessing_ok = true ∧ env.runSignatures_ok = true ∧
        env.runReporting_ok = true) := by
  simp only [process]
  split_ifs <;> simp_all [List.mem_append]

/-- C3 witness: with every stage succeeding, the report flag set yields the
`REPORTED` write and the report flag unset yields no status write. -/
theorem process_reported_gate_witness :
    (Effect.setStatus (some 42) .reported ∈
        (process
          { delete_original := false, delete_bin_copy := false,
            path_exists := fun _ => false, sample_still_used := fun _ _ => true,
            runProcessing_ok := true, runSignatures_ok := true, runReporting_ok := true }
          "/r".data (some "/t".data) "h".data 42 true false false).1) ∧
    (∀ t s, Effect.setStatus t s ∉
        (process
          { delete_original := false, delete_bin_copy := false,
            path_exists := fun _ => false, sample_still_used := fun _ _ => true,
            runProcessing_ok := true, runSignatures_ok := true, runReporting_ok := true }
          "/r".data (some "/t".data) "h".data 42 false false false).1) := by
  constructor
  · exact (process_reported_gate
      { delete_original := false, delete_bin_copy := false,
        path_exists := fun _ => false, sample_still_used := fun _ _ => true,
        runProcessing_ok := true, runSignatures_ok := true, runReporting_ok := true }
      "/r".data (some "/t".data) "h".data 42 true false false).2.mpr
      ⟨rfl, rfl, rfl, rfl⟩
  · exact (process_reported_gate
      { delete_original := false, delete_bin_copy := false,
        path_exists := fun _ => false, sample_still_used := fun _ _ => true,
        runProcessing_ok := true, runSignatures_ok := true, runReporting_ok := true }
      "/r".data (some "/t".data) "h".data 42 false false false).1 rfl

/-- C8: cleanup deletions happen only in fully-automated mode after the
Reporting stage completed: the submitted artifact is deleted exactly when
`delete_original` is set, the target is a nonempty path and it still exists;
the content-addressed copy is deleted exactly when `delete_bin_copy` is set,
the copy exists and no other task still references the hash.  (The two paths
are assumed distinct, as they are in the deployed layout.) -/
theorem process_cleanup_conditions (env : Env) (root : PyStr) (target : Option PyStr)
    (sha : PyStr) (task_id : Nat) (report auto capeproc : Bool)
    (hne : target.getD [] ≠ copy_path root sha) :
    ((report = false ∨ auto = false ∨ env.runProcessing_ok = false ∨
        env.runSignatures_ok = false ∨ env.runReporting_ok = false) →
      ∀ p, Effect.deleteFile p ∉ (process env root target sha task_id report auto capeproc).1) ∧
    (Effect.deleteFile (target.getD []) ∈
        (process env root target sha task_id report auto capeproc).1 ↔
      report = true ∧ auto = true ∧ env.runProcessing_ok = true ∧
        env.runSignatures_ok = true ∧ env.runReporting_ok = true ∧
        env.delete_original = true ∧ pyTruthy target = true ∧
        env.path_exists (target.getD []) = true) ∧
    (Effect.deleteFile (copy_path root sha) ∈
        (process env root target sha task_id report auto capeproc).1 ↔
      report = true ∧ auto = true ∧ env.runProcessing_ok = true ∧
        env.runSignatures_ok = true ∧ env.runReporting_ok = true ∧
        env.delete_bin_copy = true ∧ env.path_exists (copy_path root sha) = true ∧
        env.sample_still_used sha task_id = false) := by
  have hne2 : copy_path root sha ≠ target.getD [] := fun h => hne h.symm
  simp only [process]
  split_ifs <;> simp_all [List.mem_append]

/-- C8 witness: in automated reporting mode with both options set, both
paths existing and no other reference to the hash, both deletions occur. -/
theorem process_cleanup_conditions_witness :
    Effect.deleteFile "/t".data ∈
      (process
        { delete_original := true, delete_bin_copy := true,
          path_exists := fun _ => true, sample_still_used := fun _ _ => false,
          runProcessing_ok := true, runSignatures_ok := true, runReporting_ok := true }
        "/r".data (some "/t".data) "h".data 42 true true false).1 ∧
    Effect.deleteFile "/r/storage/binaries/h".data ∈
      (process
        { delete_original := true, delete_bin_copy := true,
          path_exists := fun _ => true, sample_still_used := fun _ _ => false,
          runProcessing_ok := true, runSignatures_ok := true, runReporting_ok := true }
        "/r".data (some "/t".data) "h".data 42 true true false).1 := by
  have h := process_cleanup_conditions
    { delete_original := true, delete_bin_copy := true,
      path_exists := fun _ => true, sample_still_used := fun _ _ => false,
      runProcessing_ok := true, runSignatures_ok := true, runReporting_ok := true }
    "/r".data (some "/t".data) "h".data 42 true true false (by decide)
  refine ⟨h.2.1.mpr ⟨rfl, rfl, rfl, rfl, rfl, rfl, by decide, rfl⟩, ?_⟩
  have hc := h.2.2.mpr ⟨rfl, rfl, rfl, rfl, rfl, rfl, rfl, rfl⟩
  have hpath : copy_path "/r".data "h".data = "/r/storage/binaries/h".data := by decide
  rwa [hpath] at hc

theorem lookup_eq_none_iff_keys (m : List (Nat × Nat)) (k : Nat) :
    lookup m k = none ↔ k ∉ m.map Prod.fst := by
  rw [lookup_eq_none_iff]
  simp only [List.mem_map]
  constructor
  · rintro h ⟨p, hp, rfl⟩
    exact h p hp rfl
  · intro h p hp hk
    exact h ⟨p, hp, hk⟩

/-- Exhaustive case analysis of one dispatch-loop iteration: capacity
backpressure, no eligible not-in-flight candidate, or exactly one
submission. -/
theorem autoprocess_iteration_spec (store : List PTask) (view_sample : Nat → Option PyStr)
    (parallel : Nat) (failed_processing : Bool) (new_future : Nat) (st : AutoState) :
    (parallel ≤ st.pending_task_id_map.length ∧
      autoprocess_iteration store view_sample parallel failed_processing new_future st =
        (st, none)) ∨
    (st.pending_task_id_map.length < parallel ∧
      (db_list_tasks store (if failed_processing then .failed_processing else .completed)
          parallel).find? (fun t => (lookup st.pending_task_id_map t.id).isNone) = none ∧
      autoprocess_iteration store view_sample parallel failed_processing new_future st =
        (st, none)) ∨
    (∃ t, st.pending_task_id_map.length < parallel ∧
      (db_list_tasks store (if failed_processing then .failed_processing else .completed)
          parallel).find? (fun t => (lookup st.pending_task_id_map t.id).isNone) = some t ∧
      autoprocess_iteration store view_sample parallel failed_processing new_future st =
        ({ pending_task_id_map := st.pending_task_id_map ++ [(t.id, new_future)],
           pending_future_map := st.pending_future_map ++ [(new_future, t.id)],
           count := st.count + 1 },
         some { task := t, target := t.target,
                sample_hash := sample_hash_for view_sample t, future := new_future })) := by
  by_cases hcap : st.pending_task_id_map.length ≥ parallel
  · exact Or.inl ⟨hcap, by simp [autoprocess_iteration, hcap]⟩
  · have hlt : st.pending_task_id_map.length < parallel := Nat.lt_of_not_le hcap
    rcases hfind : (db_list_tasks store
        (if failed_processing then .failed_processing else .completed)
        parallel).find? (fun t => (lookup st.pending_task_id_map t.id).isNone) with _ | t
    · refine Or.inr (Or.inl ⟨hlt, hfind, ?_⟩)
      simp only [autoprocess_iteration, hfind]
      simp [hcap]
    · refine Or.inr (Or.inr ⟨t, hlt, hfind, ?_⟩)
      simp only [autoprocess_iteration, hfind]
      simp [hcap]

/-- C4: the in-flight registry never exceeds the configured parallelism: a
task is submitted only when the in-flight count is strictly below
`parallel`, an iteration adds at most one entry, and the bound
`count ≤ parallel` is preserved by every iteration. -/
theorem autoprocess_iteration_capacity (store : List PTask) (view_sample : Nat → Option PyStr)
    (parallel : Nat) (failed_processing : Bool) (new_future : Nat) (st : AutoState) :
    ((autoprocess_iteration store view_sample parallel failed_processing new_future st).2.isSome =
        true → st.pending_task_id_map.length < parallel) ∧
    (autoprocess_iteration store view_sample parallel failed_processing new_future
        st).1.pending_task_id_map.length ≤ st.pending_task_id_map.length + 1 ∧
    (st.pending_task_id_map.length ≤ parallel →
      (autoprocess_iteration store view_sample parallel failed_processing new_future
          st).1.pending_task_id_map.length ≤ parallel) := by
  rcases autoprocess_iteration_spec store view_sample parallel failed_processing new_future st
    with ⟨hcap, heq⟩ | ⟨hcap, hfind, heq⟩ | ⟨t, hcap, hfind, heq⟩ <;>
      (rw [heq]; simp; try omega)

/-- C4 witness: with parallelism 1 and an empty registry, one concrete
iteration keeps the registry within the bound. -/
theorem autoprocess_iteration_capacity_witness :
    (autoprocess_iteration
        [{ id := 1, target := "/a".data, category := "file".data, sample_id := 10,
           completed_on := 5, status := .completed }]
        (fun _ => none) 1 false 100
        { pending_task_id_map := [], pending_future_map := [], count := 0
          }).1.pending_task_id_map.length ≤ 1 :=
  (autoprocess_iteration_capacity
      [{ id := 1, target := "/a".data, category := "file".data, sample_id := 10,
         completed_on := 5, status := .completed }]
      (fun _ => none) 1 false 100
      { pending_task_id_map := [], pending_future_map := [], count := 0 }).2.2 (by decide)

/-- C5: a task id never appears twice in the in-flight registry: a candidate
already present is skipped (the submitted task's id was absent), its entry
is inserted together with the submission, key-distinctness is preserved, and
when the corresponding future resolves `processing_finished` removes the
id. -/
theorem autoprocess_iteration_unique_ids (store : List PTask)
    (view_sample : Nat → Option PyStr) (parallel : Nat) (failed_processing : Bool)
    (new_future : Nat) (st : AutoState) (s : Submission) (orig : PyStr)
    (hn : (st.pending_task_id_map.map Prod.fst).Nodup)
    (hsub : (autoprocess_iteration store view_sample parallel failed_processing new_future
        st).2 = some s) :
    lookup st.pending_task_id_map s.task.id = none ∧
    (autoprocess_iteration store view_sample parallel failed_processing new_future
        st).1.pending_task_id_map = st.pending_task_id_map ++ [(s.task.id, s.future)] ∧
    lookup (autoprocess_iteration store view_sample parallel failed_processing new_future
        st).1.pending_task_id_map s.task.id = some s.future ∧
    ((autoprocess_iteration store view_sample parallel failed_processing new_future
        st).1.pending_task_id_map.map Prod.fst).Nodup ∧
    (∀ st2 : SchedState, ∀ o : FutOutcome,
      (st2.pending_task_id_map.map Prod.fst).Nodup →
      lookup st2.pending_future_map s.future = some s.task.id →
      lookup (processing_finished orig s.future o st2).1.pending_task_id_map s.task.id =
        none) := by
  rcases autoprocess_iteration_spec store view_sample parallel failed_processing new_future st
    with ⟨hcap, heq⟩ | ⟨hcap, hfind, heq⟩ | ⟨t, hcap, hfind, heq⟩
  · rw [heq] at hsub; simp at hsub
  · rw [heq] at hsub; simp at hsub
  · rw [heq] at hsub
    simp only [Option.some.injEq] at hsub
    subst hsub
    have habs : lookup st.pending_task_id_map t.id = none := by
      have := List.find?_some hfind
      simpa [Option.isNone_iff_eq_none] using this
    refine ⟨habs, by rw [heq], ?_, ?_, ?_⟩
    · rw [heq]
      exact lookup_append_of_none new_future habs
    · rw [heq]
      simp only [List.map_append, List.map_cons, List.map_nil]
      rw [List.nodup_append]
      refine ⟨hn, List.nodup_singleton _, ?_⟩
      intro a ha hb
      simp only [List.mem_singleton] at hb
      exact (lookup_eq_none_iff_keys st.pending_task_id_map t.id).mp habs (hb ▸ ha)
    · intro st2 o hn2 h2
      have hmap : (processing_finished orig new_future o st2).1.pending_task_id_map =
          popKey st2.pending_task_id_map t.id := by
        simp [processing_finished, popKey, h2]
      rw [hmap]
      exact lookup_popKey_self t.id hn2

/-- C5 witness: one concrete submission inserts the (task id, future) entry
into the previously-absent slot. -/
theorem autoprocess_iteration_unique_ids_witness :
    lookup (autoprocess_iteration
        [{ id := 1, target := "/a".data, category := "file".data, sample_id := 10,
           completed_on := 5, status := .completed }]
        (fun _ => none) 1 false 100
        { pending_task_id_map := [], pending_future_map := [], count := 0
          }).1.pending_task_id_map 1 = some 100 :=
  (autoprocess_iteration_unique_ids
      [{ id := 1, target := "/a".data, category := "file".data, sample_id := 10,
         completed_on := 5, status := .completed }]
      (fun _ => none) 1 false 100
      { pending_task_id_map := [], pending_future_map := [], count := 0 }
      { task := { id := 1, target := "/a".data, category := "file".data, sample_id := 10,
                  completed_on := 5, status := .completed },
        target := "/a".data, sample_hash := [], future := 100 }
      "x".data (by decide) (by decide)).2.2.1

/-- C7: an iteration submits at most one task, and a submitted task is an
eligible task (status `COMPLETED`, or `FAILED_PROCESSING` when reprocessing
failures) that was not in flight; among all eligible not-in-flight tasks of
the store it has the oldest completion time. -/
theorem autoprocess_iteration_oldest_first (store : List PTask)
    (view_sample : Nat → Option PyStr) (parallel : Nat) (failed_processing : Bool)
    (new_future : Nat) (st : AutoState) (s : Submission)
    (hsub : (autoprocess_iteration store view_sample parallel failed_processing new_future
        st).2 = some s) :
    (autoprocess_iteration store view_sample parallel failed_processing new_future
        st).1.pending_task_id_map.length ≤ st.pending_task_id_map.length + 1 ∧
    s.task ∈ store ∧
    s.task.status = (if failed_processing then .failed_processing else .completed) ∧
    lookup st.pending_task_id_map s.task.id = none ∧
    (∀ u ∈ store,
      u.status = (if failed_processing then .failed_processing else .completed) →
      lookup st.pending_task_id_map u.id = none →
      s.task.completed_on ≤ u.completed_on) := by
  rcases autoprocess_iteration_spec store view_sample parallel failed_processing new_future st
    with ⟨hcap, heq⟩ | ⟨hcap, hfind, heq⟩ | ⟨t, hcap, hfind, heq⟩
  · rw [heq] at hsub; simp at hsub
  · rw [heq] at hsub; simp at hsub
  · rw [heq] at hsub
    simp only [Option.some.injEq] at hsub
    subst hsub
    have hlen : (autoprocess_iteration store view_sample parallel failed_processing new_future
        st).1.pending_task_id_map.length ≤ st.pending_task_id_map.length + 1 := by
      rw [heq]; simp
    set status := (if failed_processing then TaskStatus.failed_processing
        else TaskStatus.completed) with hstatus
    set sortedEligible := (store.filter (fun u => u.status = status)).insertionSort taskLe
      with hsorted
    have htasks : db_list_tasks store status parallel = sortedEligible.take parallel := by
      simp [db_list_tasks, hsorted]
    rw [htasks] at hfind
    have hmem_sorted : ∀ u : PTask, u ∈ sortedEligible ↔ u ∈ store ∧ u.status = status := by
      intro u
      rw [hsorted, (List.perm_insertionSort taskLe _).mem_iff, List.mem_filter]
      simp
    have ht_take : t ∈ sortedEligible.take parallel := List.mem_of_find?_eq_some hfind
    have ht_sorted : t ∈ sortedEligible := List.mem_of_mem_take ht_take
    have ht_elig := (hmem_sorted t).mp ht_sorted
    have ht_absent : lookup st.pending_task_id_map t.id = none := by
      have := List.find?_some hfind
      simpa [Option.isNone_iff_eq_none] using this
    refine ⟨hlen, ht_elig.1, ht_elig.2, ht_absent, ?_⟩
    intro u hu hustat huabs
    obtain ⟨l₁, l₂, hdecomp, hfail⟩ := find?_decomp hfind
    have hall : sortedEligible = l₁ ++ t :: (l₂ ++ sortedEligible.drop parallel) := by
      conv_lhs => rw [← List.take_append_drop parallel sortedEligible]
      rw [hdecomp]
      simp
    have hpair : List.Pairwise taskLe sortedEligible := by
      rw [hsorted]
      exact List.sorted_insertionSort taskLe _
    rw [hall] at hpair
    have hu_sorted : u ∈ sortedEligible := (hmem_sorted u).mpr ⟨hu, hustat⟩
    rw [hall] at hu_sorted
    rcases List.mem_append.mp hu_sorted with hu₁ | hu₂
    · exfalso
      have := hfail u hu₁
      rw [huabs] at this
      simp at this
    · rcases List.mem_cons.mp hu₂ with rfl | hu₃
      · exact Nat.le_refl _
      · have hrest := (List.pairwise_append.mp hpair).2.1
        exact (List.pairwise_cons.mp hrest).1 u hu₃

/-- C7 witness: of two eligible tasks the one completed earlier is the one
submitted, and it is no younger than any eligible candidate. -/
theorem autoprocess_iteration_oldest_first_witness :
    ({ id := 2, target := "/b".data, category := "url".data, sample_id := 11,
       completed_on := 3, status := .completed } : PTask) ∈
      ([{ id := 1, target := "/a".data, category := "file".data, sample_id := 10,
          completed_on := 5, status := .completed },
        { id := 2, target := "/b".data, category := "url".data, sample_id := 11,
          completed_on := 3, status := .completed }] : List PTask) ∧
    (∀ u ∈ ([{ id := 1, target := "/a".data, category := "file".data, sample_id := 10,
               completed_on := 5, status := .completed },
             { id := 2, target := "/b".data, category := "url".data, sample_id := 11,
               completed_on := 3, status := .completed }] : List PTask),
      u.status = (if false then .failed_processing else .completed) →
      lookup ([] : List (Nat × Nat)) u.id = none →
      (3 : Nat) ≤ u.completed_on) := by
  have h := autoprocess_iteration_oldest_first
    [{ id := 1, target := "/a".data, category := "file".data, sample_id := 10,
       completed_on := 5, status := .completed },
     { id := 2, target := "/b".data, category := "url".data, sample_id := 11,
       completed_on := 3, status := .completed }]
    (fun _ => none) 2 false 100
    { pending_task_id_map := [], pending_future_map := [], count := 0 }
    { task := { id := 2, target := "/b".data, category := "url".data, sample_id := 11,
                completed_on := 3, status := .completed },
      target := "/b".data, sample_hash := [], future := 100 }
    (by decide)
  exact ⟨h.2.1, h.2.2.2.2⟩

/-- C10: a submitted task whose category is `"url"`, or whose sample record
cannot be resolved, is handed to the pipeline executor with an empty content
hash; in the automated run (`report=True, auto=True`) the stored-copy path
then considered for deletion is the binaries directory joined with the empty
string (which carries a trailing separator). -/
theorem autoprocess_iteration_url_empty_hash (store : List PTask)
    (view_sample : Nat → Option PyStr) (parallel : Nat) (failed_processing : Bool)
    (new_future : Nat) (st : AutoState) (s : Submission)
    (hsub : (autoprocess_iteration store view_sample parallel failed_processing new_future
        st).2 = some s)
    (hurl : s.task.category = "url".data ∨ view_sample s.task.sample_id = none) :
    s.sample_hash = [] ∧
    (∀ (env : Env) (root : PyStr) (target : Option PyStr) (task_id : Nat),
      env.runProcessing_ok = true → env.runSignatures_ok = true →
      env.runReporting_ok = true → env.delete_bin_copy = true →
      env.path_exists (copy_path root s.sample_hash) = true →
      env.sample_still_used s.sample_hash task_id = false →
      Effect.deleteFile (copy_path root s.sample_hash) ∈
        (process env root target s.sample_hash task_id true true false).1) ∧
    (∀ root, copy_path root s.sample_hash =
      osPathJoin (osPathJoin (osPathJoin root "storage".data) "binaries".data) []) ∧
    copy_path "/opt/CAPEv2".data s.sample_hash = "/opt/CAPEv2/storage/binaries/".data := by
  rcases autoprocess_iteration_spec store view_sample parallel failed_processing new_future st
    with ⟨hcap, heq⟩ | ⟨hcap, hfind, heq⟩ | ⟨t, hcap, hfind, heq⟩
  · rw [heq] at hsub; simp at hsub
  · rw [heq] at hsub; simp at hsub
  · rw [heq] at hsub
    simp only [Option.some.injEq] at hsub
    subst hsub
    simp only at hurl
    have hhash : sample_hash_for view_sample t = [] := by
      rcases hurl with hcat | hview
      · simp [sample_hash_for, hcat]
      · simp only [sample_hash_for, hview]
        split <;> rfl
    refine ⟨hhash, ?_, ?_, ?_⟩
    · intro env root target task_id h1 h2 h3 h4 h5 h6
      simp only at h5 h6 ⊢
      simp [process, h1, h2, h3, h4, h5, h6, List.mem_append]
    · intro root
      simp only [hhash]
      rfl
    · simp only [hhash]
      decide

/-- C10 witness: a concrete url-category task is submitted with the empty
hash and the considered stored-copy path is the binaries directory with a
trailing separator. -/
theorem autoprocess_iteration_url_empty_hash_witness :
    ((autoprocess_iteration
        [{ id := 2, target := "/b".data, category := "url".data, sample_id := 11,
           completed_on := 3, status := .completed }]
        (fun _ => some "h".data) 1 false 100
        { pending_task_id_map := [], pending_future_map := [], count := 0 }).2.map
      (fun s => s.sample_hash) = some []) ∧
    copy_path "/opt/CAPEv2".data [] = "/opt/CAPEv2/storage/binaries/".data := by
  have h := autoprocess_iteration_url_empty_hash
    [{ id := 2, target := "/b".data, category := "url".data, sample_id := 11,
       completed_on := 3, status := .completed }]
    (fun _ => some "h".data) 1 false 100
    { pending_task_id_map := [], pending_future_map := [], count := 0 }
    { task := { id := 2, target := "/b".data, category := "url".data, sample_id := 11,
                completed_on := 3, status := .completed },
      target := "/b".data, sample_hash := [], future := 100 }
    (by decide) (Or.inl (by decide))
  exact ⟨by decide, h.1 ▸ h.2.2.2⟩

/-- C9: `parse_id` returns the literal `auto` unchanged and splits any other
selector on commas; a single id `n` denotes the inclusive pair `(n, n)`, a
range `a-b` with `a ≤ b` denotes `(a, b)`, and an inverted range (`b < a`)
or a block of more than two components raises `Invalid id input` during
parsing. -/
theorem parse_id_selector (n a b c : Nat) (bs : List Nat) :
    parse_id "auto".data = .ok .auto ∧
    parse_block [n] = .ok (n, n) ∧
    (a ≤ b → parse_block [a, b] = .ok (a, b)) ∧
    (b < a → parse_block [a, b] = .error "Invalid id input".data) ∧
    parse_block (a :: b :: c :: bs) = .error "Invalid id input".data ∧
    parse_id "3,5-7,9".data = .ok (.ids [(3, 3), (5, 7), (9, 9)]) := by
  refine ⟨by decide, rfl, ?_, ?_, rfl, by decide⟩
  · intro h
    simp only [parse_block, if_neg (Nat.not_lt.mpr h)]
  · intro h
    simp only [parse_block, if_pos h]

/-- C9 witness: concrete instances of the range rules. -/
theorem parse_id_selector_witness :
    parse_block [2, 5] = .ok (2, 5) ∧
    parse_block [5, 2] = .error "Invalid id input".data :=
  ⟨(parse_id_selector 0 2 5 0 []).2.2.1 (by decide),
   (parse_id_selector 0 5 2 0 []).2.2.2.1 (by decide)⟩

/-- C1 counterexample: the `try/except` of `autoprocess` wraps the whole
`while` loop, so an unexpected exception in iteration 1 of a two-iteration
script stops the loop after a single iteration (the traceback is printed and
`autoprocess` returns); the loop does not continue with the remaining
iteration, contradicting the claim. -/
theorem autoprocess_unexpected_exception_stops_loop :
    (autoprocess_run [.raiseExn (.otherExn "boom".data), .normal]).1 = 1 ∧
    ([IterEvent.raiseExn (.otherExn "boom".data), .normal] : List IterEvent).length = 2 ∧
    (autoprocess_run [.raiseExn (.otherExn "boom".data), .normal]).2.1 = .returned := by
  decide

/-- C1 amended: an unexpected exception inside an iteration is logged
(traceback printed) but terminates the dispatch loop: no iteration after the
raising one runs, and `autoprocess` returns normally; a `MemoryError` exits
with code 1 and a `KeyboardInterrupt` propagates. -/
theorem autoprocess_exception_discipline (script : List IterEvent) :
    (∀ m, (runLoop script).2 = some (.otherExn m) →
      (autoprocess_run script).2.1 = .returned ∧
      Effect.logLine "traceback.print_exc".data ∈ (autoprocess_run script).2.2) ∧
    ((runLoop script).2 = some .memoryError → (autoprocess_run script).2.1 = .exited 1) ∧
    ((runLoop script).2 = some .keyboardInterrupt →
      (autoprocess_run script).2.1 = .raised .keyboardInterrupt) ∧
    (∀ pre e rest, script = pre ++ .raiseExn e :: rest →
      (∀ x ∈ pre, x = .normal) →
      (runLoop script).1 = pre.length + 1 ∧ (runLoop script).2 = some e) := by
  refine ⟨?_, ?_, ?_, ?_⟩
  · intro m h
    simp [autoprocess_run, h, autoprocess_handle]
  · intro h
    simp [autoprocess_run, h, autoprocess_handle]
  · intro h
    simp [autoprocess_run, h, autoprocess_handle]
  · intro pre e rest hscript hnormal
    subst hscript
    induction pre with
    | nil => simp [runLoop]
    | cons x xs ih =>
        have hx : x = .normal := hnormal x (by simp)
        subst hx
        have hxs : ∀ y ∈ xs, y = IterEvent.normal := fun y hy => hnormal y (by simp [hy])
        obtain ⟨ih1, ih2⟩ := ih hxs
        constructor
        · simp [runLoop, ih1]
        · simp [runLoop, ih2]

/-- C1 amended witness: a script whose second iteration raises an unexpected
exception runs exactly two iterations and ends with a normal return and the
traceback logged. -/
theorem autoprocess_exception_discipline_witness :
    (runLoop [.normal, .raiseExn (.otherExn "e".data), .normal]).1 = 2 ∧
    (autoprocess_run [.normal, .raiseExn (.otherExn "e".data), .normal]).2.1 = .returned := by
  have h := autoprocess_exception_discipline [.normal, .raiseExn (.otherExn "e".data), .normal]
  have h4 := h.2.2.2 [.normal] (.otherExn "e".data) [.normal] rfl (by
    intro x hx
    simp only [List.mem_singleton] at hx
    exact hx)
  exact ⟨by simpa using h4.1, (h.1 "e".data h4.2).1⟩

end CapeProcess
